import Mathlib

/-!
Verification of the gemmlowp NEON fixed-point backend
(`src/internal/fixedpoint_neon.h`) against its specification.

The backend works on the ARM NEON vector type `int32x4_t`: four independent
32-bit two's-complement lanes.  We embed a lane as an `Int` in the range
`[-2^31, 2^31)` and a vector as a function `Fin 4 → Int`.  Each NEON
intrinsic used by the source file is given its documented ARM semantics
lane-wise, and each gemmlowp operation is then translated directly from the
corresponding template specialization in the source file.

The scalar backend (`fixedpoint.h`) is not part of the provided sources, so
the scalar reference semantics are modelled from the specification text; see
the `scalar` namespace below.
-/

namespace gemmlowp

/-! ### 32-bit two's-complement lane values -/

/-- The unsigned 32-bit pattern of an integer: its residue modulo `2^32`. -/
def toBits (a : Int) : Nat := (a % 2 ^ 32).toNat

/-- The signed int32 value of a 32-bit pattern (two's complement readout). -/
def ofBits (n : Nat) : Int :=
  if n % 2 ^ 32 < 2 ^ 31 then ((n % 2 ^ 32 : Nat) : Int)
  else ((n % 2 ^ 32 : Nat) : Int) - 2 ^ 32

/-- Wraparound (two's complement) reduction of an integer into int32 range. -/
def wrap32 (a : Int) : Int := ofBits (toBits a)

/-- `a` is representable as a signed 32-bit integer. -/
def IsInt32 (a : Int) : Prop := -2 ^ 31 ≤ a ∧ a < 2 ^ 31

instance (a : Int) : Decidable (IsInt32 a) :=
  inferInstanceAs (Decidable (_ ∧ _))

/-- Saturation (clamping) of an integer to the int32 range. -/
def sat32 (x : Int) : Int := max (-2 ^ 31) (min x (2 ^ 31 - 1))

/-! ### Lane-wise bitwise operations (32-bit) -/

/-- Lane-wise 32-bit bitwise AND. -/
def landLane (a b : Int) : Int := ofBits (toBits a &&& toBits b)

/-- Lane-wise 32-bit bitwise OR. -/
def lorLane (a b : Int) : Int := ofBits (toBits a ||| toBits b)

/-- Lane-wise 32-bit bitwise XOR. -/
def lxorLane (a b : Int) : Int := ofBits (toBits a ^^^ toBits b)

/-! ### The NEON vector type and the intrinsics used by the source file.

Each intrinsic is modelled lane-wise following its documented ARM NEON
semantics. -/

/-- The NEON vector type `int32x4_t`: four independent int32 lanes. -/
abbrev int32x4_t : Type := Fin 4 → Int

/-- Build an `int32x4_t` from four explicit lane values. -/
def mk4 (a b c d : Int) : int32x4_t := fun i =>
  match i with
  | ⟨0, _⟩ => a
  | ⟨1, _⟩ => b
  | ⟨2, _⟩ => c
  | ⟨3, _⟩ => d

/-- Every lane of the vector is a representable int32. -/
def IsInt32x4 (v : int32x4_t) : Prop := ∀ i, IsInt32 (v i)

instance (v : int32x4_t) : Decidable (IsInt32x4 v) :=
  inferInstanceAs (Decidable (∀ i, IsInt32 (v i)))

/-- ARM `vdupq_n_s32`: broadcast a scalar into all four lanes. -/
def vdupq_n_s32 (x : Int) : int32x4_t := fun _ => x

/-- ARM `vandq_s32`: lane-wise bitwise AND. -/
def vandq_s32 (a b : int32x4_t) : int32x4_t := fun i => landLane (a i) (b i)

/-- ARM `vorrq_s32`: lane-wise bitwise OR. -/
def vorrq_s32 (a b : int32x4_t) : int32x4_t := fun i => lorLane (a i) (b i)

/-- ARM `veorq_s32`: lane-wise bitwise XOR. -/
def veorq_s32 (a b : int32x4_t) : int32x4_t := fun i => lxorLane (a i) (b i)

/-- ARM `vaddq_s32`: lane-wise wraparound addition. -/
def vaddq_s32 (a b : int32x4_t) : int32x4_t := fun i => wrap32 (a i + b i)

/-- ARM `vsubq_s32`: lane-wise wraparound subtraction. -/
def vsubq_s32 (a b : int32x4_t) : int32x4_t := fun i => wrap32 (a i - b i)

/-- ARM `vnegq_s32`: lane-wise wraparound negation. -/
def vnegq_s32 (a : int32x4_t) : int32x4_t := fun i => wrap32 (-(a i))

/-- ARM `vceqq_s32` composed with `vreinterpretq_s32_u32`: each lane is
all-ones (`0xFFFFFFFF`, i.e. `-1` as int32) where the lanes are equal,
all-zeros otherwise. -/
def vceqq_s32 (a b : int32x4_t) : int32x4_t := fun i =>
  if a i = b i then -1 else 0

/-- ARM `vcgtq_s32` composed with `vreinterpretq_s32_u32` (signed `>`). -/
def vcgtq_s32 (a b : int32x4_t) : int32x4_t := fun i =>
  if a i > b i then -1 else 0

/-- ARM `vcgeq_s32` composed with `vreinterpretq_s32_u32` (signed `≥`). -/
def vcgeq_s32 (a b : int32x4_t) : int32x4_t := fun i =>
  if a i ≥ b i then -1 else 0

/-- ARM `vcltq_s32` composed with `vreinterpretq_s32_u32` (signed `<`). -/
def vcltq_s32 (a b : int32x4_t) : int32x4_t := fun i =>
  if a i < b i then -1 else 0

/-- ARM `vcleq_s32` composed with `vreinterpretq_s32_u32` (signed `≤`). -/
def vcleq_s32 (a b : int32x4_t) : int32x4_t := fun i =>
  if a i ≤ b i then -1 else 0

/-- ARM `vrhaddq_s32`: lane-wise signed rounding halving add,
`(a + b + 1) >> 1` computed without intermediate overflow. -/
def vrhaddq_s32 (a b : int32x4_t) : int32x4_t := fun i =>
  (a i + b i + 1) / 2

/-- ARM `vqrdmulhq_s32`: lane-wise saturating rounding doubling multiply
returning the high half: `(2*a*b + 2^31) >> 32`, saturated to int32. -/
def vqrdmulhq_s32 (a b : int32x4_t) : int32x4_t := fun i =>
  sat32 ((2 * a i * b i + 2 ^ 31) / 2 ^ 32)

/-- ARM `vqshlq_n_s32`: lane-wise saturating left shift by an immediate. -/
def vqshlq_n_s32 (a : int32x4_t) (n : Nat) : int32x4_t := fun i =>
  sat32 (a i * 2 ^ n)

/-- ARM `vrshrq_n_s32`: lane-wise rounding arithmetic right shift by an
immediate `n ≥ 1`: `(a + 2^(n-1)) >> n`. -/
def vrshrq_n_s32 (a : int32x4_t) (n : Nat) : int32x4_t := fun i =>
  (a i + 2 ^ (n - 1)) / 2 ^ n

/-! ### The gemmlowp NEON backend, translated from
`src/internal/fixedpoint_neon.h`. -/

/-- `BitAnd<int32x4_t>`: `vandq_s32(a, b)`. -/
def BitAnd (a b : int32x4_t) : int32x4_t := vandq_s32 a b

/-- `BitOr<int32x4_t>`: `vorrq_s32(a, b)`. -/
def BitOr (a b : int32x4_t) : int32x4_t := vorrq_s32 a b

/-- `BitXor<int32x4_t>`: `veorq_s32(a, b)`. -/
def BitXor (a b : int32x4_t) : int32x4_t := veorq_s32 a b

/-- `BitNot<int32x4_t>`: `veorq_s32(a, vdupq_n_s32(-1))`. -/
def BitNot (a : int32x4_t) : int32x4_t := veorq_s32 a (vdupq_n_s32 (-1))

/-- `Add<int32x4_t>`: `vaddq_s32(a, b)`. -/
def Add (a b : int32x4_t) : int32x4_t := vaddq_s32 a b

/-- `Sub<int32x4_t>`: `vsubq_s32(a, b)`. -/
def Sub (a b : int32x4_t) : int32x4_t := vsubq_s32 a b

/-- `Neg<int32x4_t>`: `vnegq_s32(a)`. -/
def Neg (a : int32x4_t) : int32x4_t := vnegq_s32 a

/-- `SelectUsingMask<int32x4_t>`:
`BitXor(BitAnd(if_mask, then_val), BitAnd(BitNot(if_mask), else_val))`. -/
def SelectUsingMask (if_mask then_val else_val : int32x4_t) : int32x4_t :=
  BitXor (BitAnd if_mask then_val) (BitAnd (BitNot if_mask) else_val)

/-- `MaskIfEqual<int32x4_t>`: `vceqq_s32(a, b)` reinterpreted as int32x4. -/
def MaskIfEqual (a b : int32x4_t) : int32x4_t := vceqq_s32 a b

/-- `MaskIfNotEqual<int32x4_t>`: `BitNot(MaskIfEqual(a, b))`. -/
def MaskIfNotEqual (a b : int32x4_t) : int32x4_t := BitNot (MaskIfEqual a b)

/-- `MaskIfZero<int32x4_t>`: `MaskIfEqual(a, vdupq_n_s32(0))`. -/
def MaskIfZero (a : int32x4_t) : int32x4_t := MaskIfEqual a (vdupq_n_s32 0)

/-- `MaskIfNonZero<int32x4_t>`: `BitNot(MaskIfZero(a))`. -/
def MaskIfNonZero (a : int32x4_t) : int32x4_t := BitNot (MaskIfZero a)

/-- `MaskIfGreaterThan<int32x4_t>`: `vcgtq_s32(a, b)` reinterpreted. -/
def MaskIfGreaterThan (a b : int32x4_t) : int32x4_t := vcgtq_s32 a b

/-- `MaskIfGreaterThanOrEqual<int32x4_t>`: `vcgeq_s32(a, b)` reinterpreted. -/
def MaskIfGreaterThanOrEqual (a b : int32x4_t) : int32x4_t := vcgeq_s32 a b

/-- `MaskIfLessThan<int32x4_t>`: `vcltq_s32(a, b)` reinterpreted. -/
def MaskIfLessThan (a b : int32x4_t) : int32x4_t := vcltq_s32 a b

/-- `MaskIfLessThanOrEqual<int32x4_t>`: `vcleq_s32(a, b)` reinterpreted. -/
def MaskIfLessThanOrEqual (a b : int32x4_t) : int32x4_t := vcleq_s32 a b

/-- `All<int32x4_t>`: stores the four lanes and returns `b[0] && b[1] &&
b[2] && b[3]` under C truthiness (a lane is true iff nonzero). -/
def All (a : int32x4_t) : Bool :=
  (a 0 != 0) && (a 1 != 0) && (a 2 != 0) && (a 3 != 0)

/-- `Any<int32x4_t>`: stores the four lanes and returns `b[0] || b[1] ||
b[2] || b[3]` under C truthiness (a lane is true iff nonzero). -/
def Any (a : int32x4_t) : Bool :=
  (a 0 != 0) || (a 1 != 0) || (a 2 != 0) || (a 3 != 0)

/-- `RoundingHalfSum<int32x4_t>`: `vrhaddq_s32(a, b)`. -/
def RoundingHalfSum (a b : int32x4_t) : int32x4_t := vrhaddq_s32 a b

/-- `SaturatingRoundingDoublingHighMul<int32x4_t>`: `vqrdmulhq_s32(a, b)`. -/
def SaturatingRoundingDoublingHighMul (a b : int32x4_t) : int32x4_t :=
  vqrdmulhq_s32 a b

/-- `ImplSaturatingRoundingMultiplyByPOT<Exponent, int32x4_t, 1>`
(positive exponent specialization): `vqshlq_n_s32(x, Exponent)`. -/
def ImplSaturatingRoundingMultiplyByPOT_pos (Exponent : Int)
    (x : int32x4_t) : int32x4_t :=
  vqshlq_n_s32 x Exponent.toNat

/-- `ImplSaturatingRoundingMultiplyByPOT<Exponent, int32x4_t, -1>`
(negative exponent specialization): `vrshrq_n_s32(x, -Exponent)`.
No specialization exists for `Exponent == 0`. -/
def ImplSaturatingRoundingMultiplyByPOT_neg (Exponent : Int)
    (x : int32x4_t) : int32x4_t :=
  vrshrq_n_s32 x (-Exponent).toNat

/-- `FixedPointRawTypeTraits<int32x4_t>::kLanes` = 4. -/
def FixedPointRawTypeTraits_kLanes : Nat := 4

/-- `Dup<int32x4_t>`: `vdupq_n_s32(x)`. -/
def Dup (x : Int) : int32x4_t := vdupq_n_s32 x

/-! ### The scalar backend, modelled from the specification.

The scalar backend (`fixedpoint.h`) is not among the provided sources, only
the NEON specializations are.  Following the specification's per-operation
contracts (section 4.1), the scalar reference semantics are modelled here on
a single int32 lane.  Where the specification leaves the tie-breaking
direction of "round to nearest" implicit, we use its only stated convention:
ties round toward positive infinity (as stated for `RoundingHalfSum`). -/

namespace scalar

/-- Modelled from the spec: scalar `BitAnd`, a standard lane-wise bitwise
AND (`fixedpoint.h` is not in src/). -/
def BitAnd (a b : Int) : Int := landLane a b

/-- Modelled from the spec: scalar `BitOr`, a standard lane-wise bitwise
OR (`fixedpoint.h` is not in src/). -/
def BitOr (a b : Int) : Int := lorLane a b

/-- Modelled from the spec: scalar `BitXor`, a standard lane-wise bitwise
XOR (`fixedpoint.h` is not in src/). -/
def BitXor (a b : Int) : Int := lxorLane a b

/-- Modelled from the spec: scalar `BitNot`, a standard bitwise complement
of all 32 bits (`fixedpoint.h` is not in src/). -/
def BitNot (a : Int) : Int := ofBits (toBits a ^^^ (2 ^ 32 - 1))

/-- Modelled from the spec: scalar `Add`, plain two's-complement wraparound
addition (`fixedpoint.h` is not in src/). -/
def Add (a b : Int) : Int := wrap32 (a + b)

/-- Modelled from the spec: scalar `Sub`, plain two's-complement wraparound
subtraction (`fixedpoint.h` is not in src/). -/
def Sub (a b : Int) : Int := wrap32 (a - b)

/-- Modelled from the spec: scalar `Neg`, plain two's-complement wraparound
negation (`fixedpoint.h` is not in src/). -/
def Neg (a : Int) : Int := wrap32 (-a)

/-- Modelled from the spec: scalar `SelectUsingMask`, the reference formula
`(mask & then_val) | (~mask & else_val)` (`fixedpoint.h` is not in src/). -/
def SelectUsingMask (if_mask then_val else_val : Int) : Int :=
  BitOr (BitAnd if_mask then_val) (BitAnd (BitNot if_mask) else_val)

/-- Modelled from the spec: scalar `MaskIfEqual`, all-ones (`-1`) when the
lanes are equal, all-zeros otherwise (`fixedpoint.h` is not in src/). -/
def MaskIfEqual (a b : Int) : Int := if a = b then -1 else 0

/-- Modelled from the spec: scalar `MaskIfNotEqual` (`fixedpoint.h` is not
in src/). -/
def MaskIfNotEqual (a b : Int) : Int := if a = b then 0 else -1

/-- Modelled from the spec: scalar `MaskIfZero` is `MaskIfEqual` against
zero (`fixedpoint.h` is not in src/). -/
def MaskIfZero (a : Int) : Int := MaskIfEqual a 0

/-- Modelled from the spec: scalar `MaskIfNonZero` is `MaskIfNotEqual`
against zero (`fixedpoint.h` is not in src/). -/
def MaskIfNonZero (a : Int) : Int := MaskIfNotEqual a 0

/-- Modelled from the spec: scalar `MaskIfGreaterThan`, signed per-lane
comparison producing a mask (`fixedpoint.h` is not in src/). -/
def MaskIfGreaterThan (a b : Int) : Int := if a > b then -1 else 0

/-- Modelled from the spec: scalar `MaskIfGreaterThanOrEqual`
(`fixedpoint.h` is not in src/). -/
def MaskIfGreaterThanOrEqual (a b : Int) : Int := if a ≥ b then -1 else 0

/-- Modelled from the spec: scalar `MaskIfLessThan` (`fixedpoint.h` is not
in src/). -/
def MaskIfLessThan (a b : Int) : Int := if a < b then -1 else 0

/-- Modelled from the spec: scalar `MaskIfLessThanOrEqual` (`fixedpoint.h`
is not in src/). -/
def MaskIfLessThanOrEqual (a b : Int) : Int := if a ≤ b then -1 else 0

/-- Modelled from the spec: scalar `RoundingHalfSum`, the arithmetic mean
`round((a+b)/2)` rounded to nearest with ties toward positive infinity
(`fixedpoint.h` is not in src/). -/
def RoundingHalfSum (a b : Int) : Int := round (((a + b : Int) : ℚ) / 2)

/-- Modelled from the spec: scalar `SaturatingRoundingDoublingHighMul`,
`round(2*a*b / 2^32)` saturating to the maximum representable value exactly
when both inputs are the minimum representable value (`fixedpoint.h` is not
in src/). -/
def SaturatingRoundingDoublingHighMul (a b : Int) : Int :=
  if a = -2 ^ 31 ∧ b = -2 ^ 31 then 2 ^ 31 - 1
  else round (((2 * a * b : Int) : ℚ) / 2 ^ 32)

/-- Modelled from the spec: scalar `SaturatingRoundingMultiplyByPOT` with
positive exponent, a saturating left shift clamped at the int32 minimum and
maximum (`fixedpoint.h` is not in src/). -/
def SaturatingRoundingMultiplyByPOT_pos (Exponent : Int) (x : Int) : Int :=
  if x * 2 ^ Exponent.toNat > 2 ^ 31 - 1 then 2 ^ 31 - 1
  else if x * 2 ^ Exponent.toNat < -2 ^ 31 then -2 ^ 31
  else x * 2 ^ Exponent.toNat

/-- Modelled from the spec: scalar `SaturatingRoundingMultiplyByPOT` with
negative exponent, a right shift by `-Exponent` rounded to nearest with
ties toward positive infinity (`fixedpoint.h` is not in src/). -/
def SaturatingRoundingMultiplyByPOT_neg (Exponent : Int) (x : Int) : Int :=
  round ((x : ℚ) / 2 ^ (-Exponent).toNat)

/-- Modelled from the spec: scalar `Dup` is the identity on a single lane
(`fixedpoint.h` is not in src/). -/
def Dup (x : Int) : Int := x

end scalar

/-! ### Sample vectors used to witness hypotheses at concrete inputs -/

def sampleA : int32x4_t := mk4 (-2 ^ 31) 3 (-7) 1000000

def sampleB : int32x4_t := mk4 (-2 ^ 31) 5 2147483647 (-123456)

def sampleMask : int32x4_t := mk4 (-1) 0 (-1) 0

def sampleZero : int32x4_t := mk4 0 0 0 0

def sampleOnes : int32x4_t := mk4 (-1) (-1) (-1) (-1)

def sampleC : int32x4_t := mk4 100 (-50) 7 0

/-! ### Basic facts about `toBits`, `ofBits` and `wrap32` -/

lemma toBits_lt (x : Int) : toBits x < 2 ^ 32 := by
  have h1 : 0 ≤ x % 2 ^ 32 := Int.emod_nonneg x (by norm_num)
  have h2 : x % 2 ^ 32 < 2 ^ 32 := Int.emod_lt_of_pos x (by norm_num)
  unfold toBits
  omega

lemma toBits_cast (x : Int) : ((toBits x : Nat) : Int) = x % 2 ^ 32 := by
  unfold toBits
  exact Int.toNat_of_nonneg (Int.emod_nonneg x (by norm_num))

lemma isInt32_ofBits (n : Nat) : IsInt32 (ofBits n) := by
  have h : n % 2 ^ 32 < 2 ^ 32 := Nat.mod_lt n (by norm_num)
  unfold ofBits IsInt32
  split <;> omega

lemma ofBits_emod (n : Nat) : ofBits n % 2 ^ 32 = (n : Int) % 2 ^ 32 := by
  unfold ofBits
  split <;> omega

lemma wrap32_isInt32 (x : Int) : IsInt32 (wrap32 x) := isInt32_ofBits _

lemma wrap32_emod (x : Int) : wrap32 x % 2 ^ 32 = x % 2 ^ 32 := by
  unfold wrap32
  rw [ofBits_emod, toBits_cast]
  omega

lemma wrap32_eq (x : Int) (h : IsInt32 x) : wrap32 x = x := by
  have h1 := wrap32_isInt32 x
  have h2 := wrap32_emod x
  unfold IsInt32 at h h1
  omega

lemma toBits_ofBits (n : Nat) : toBits (ofBits n) = n % 2 ^ 32 := by
  have h1 := ofBits_emod n
  have h2 : ((n : Int)) % 2 ^ 32 = ((n % 2 ^ 32 : Nat) : Int) := by
    push_cast
    omega
  unfold toBits
  rw [h1, h2, Int.toNat_natCast]

lemma toBits_ofBits_of_lt (n : Nat) (h : n < 2 ^ 32) :
    toBits (ofBits n) = n := by
  rw [toBits_ofBits, Nat.mod_eq_of_lt h]

lemma ofBits_congr (m n : Nat) (h : m % 2 ^ 32 = n % 2 ^ 32) :
    ofBits m = ofBits n := by
  unfold ofBits
  rw [h]

lemma toBits_wrap32 (x : Int) : toBits (wrap32 x) = toBits x := by
  unfold wrap32
  rw [toBits_ofBits, Nat.mod_eq_of_lt (toBits_lt x)]

/-! ### Bitwise lane lemmas -/

lemma toBits_neg_one : toBits (-1) = 2 ^ 32 - 1 := by decide

lemma toBits_zero : toBits 0 = 0 := by decide

lemma testBit_ones32 (j : Nat) : Nat.testBit (2 ^ 32 - 1) j = decide (j < 32) :=
  Nat.testBit_two_pow_sub_one 32 j

lemma testBit_toBits_high (x : Int) (j : Nat) (hj : 32 ≤ j) :
    (toBits x).testBit j = false :=
  Nat.testBit_lt_two_pow
    (lt_of_lt_of_le (toBits_lt x) (Nat.pow_le_pow_right (by norm_num) hj))

/-- The NEON `BitNot` lane (`veor` against all-ones) is the complement of
the 32-bit pattern. -/
lemma lxorLane_neg_one (a : Int) :
    lxorLane a (-1) = ofBits (toBits a ^^^ (2 ^ 32 - 1)) := by
  unfold lxorLane
  rw [toBits_neg_one]

lemma landLane_neg_one (x : Int) : landLane (-1) x = wrap32 x := by
  unfold landLane wrap32
  rw [toBits_neg_one]
  congr 1
  apply Nat.eq_of_testBit_eq
  intro j
  rcases lt_or_le j 32 with hj | hj
  · rw [Nat.testBit_land, testBit_ones32]
    simp [hj]
  · rw [Nat.testBit_land, testBit_ones32, testBit_toBits_high x j hj]
    simp

lemma landLane_zero (x : Int) : landLane 0 x = 0 := by
  unfold landLane
  rw [toBits_zero, Nat.zero_and]
  decide

lemma lxorLane_zero_right (x : Int) : lxorLane x 0 = wrap32 x := by
  unfold lxorLane wrap32
  rw [toBits_zero, Nat.xor_zero]

lemma lxorLane_zero_left (x : Int) : lxorLane 0 x = wrap32 x := by
  unfold lxorLane wrap32
  rw [toBits_zero, Nat.zero_xor]

/-- XOR and OR agree on bit-disjoint arguments. -/
lemma xor_eq_or_of_disjoint (x y : Nat) (h : x &&& y = 0) :
    x ^^^ y = x ||| y := by
  apply Nat.eq_of_testBit_eq
  intro j
  have hj : (x &&& y).testBit j = false := by rw [h]; simp
  rw [Nat.testBit_land] at hj
  rw [Nat.testBit_xor, Nat.testBit_lor]
  cases hx : x.testBit j <;> cases hy : y.testBit j <;>
    simp_all

lemma lxorLane_eq_lorLane (x y : Int) (h : toBits x &&& toBits y = 0) :
    lxorLane x y = lorLane x y := by
  unfold lxorLane lorLane
  rw [xor_eq_or_of_disjoint _ _ h]

/-- The two operands of the NEON select are bit-disjoint, so the XOR in the
NEON implementation computes the same value as the reference OR. -/
lemma selectLane_xor_eq_or (m t e : Int) :
    lxorLane (landLane m t) (landLane (lxorLane m (-1)) e)
      = lorLane (landLane m t) (landLane (lxorLane m (-1)) e) := by
  have hmt : toBits (landLane m t) = toBits m &&& toBits t := by
    unfold landLane
    exact toBits_ofBits_of_lt _
      (lt_of_le_of_lt Nat.and_le_left (toBits_lt m))
  have hnot : toBits (lxorLane m (-1)) = toBits m ^^^ (2 ^ 32 - 1) := by
    rw [lxorLane_neg_one]
    exact toBits_ofBits_of_lt _
      (Nat.xor_lt_two_pow (toBits_lt m) (by norm_num))
  have hne : toBits (landLane (lxorLane m (-1)) e)
      = (toBits m ^^^ (2 ^ 32 - 1)) &&& toBits e := by
    unfold landLane
    rw [hnot]
    exact toBits_ofBits_of_lt _
      (lt_of_le_of_lt Nat.and_le_left
        (Nat.xor_lt_two_pow (toBits_lt m) (by norm_num)))
  apply lxorLane_eq_lorLane
  rw [hmt, hne]
  apply Nat.eq_of_testBit_eq
  intro j
  rcases lt_or_le j 32 with hj | hj
  · rw [Nat.testBit_land, Nat.testBit_land, Nat.testBit_land,
      Nat.testBit_xor, testBit_ones32]
    cases hm : (toBits m).testBit j <;> simp [hj, hm]
  · rw [Nat.testBit_land, Nat.testBit_land, testBit_toBits_high m j hj]
    simp

/-! ### Rounding and saturation lemmas -/

/-- Rounding to nearest with ties toward positive infinity of `n / 2^k`
equals the "add half, then floor-shift" integer computation. -/
lemma round_intCast_div_pow (n : Int) (k : Nat) (hk : 1 ≤ k) :
    round ((n : ℚ) / 2 ^ k) = (n + 2 ^ (k - 1)) / 2 ^ k := by
  have h2 : (2 : ℚ) ^ k = 2 ^ (k - 1) * 2 := by
    rw [← pow_succ]
    congr 1
    omega
  have h3 : (n : ℚ) / 2 ^ k + 1 / 2
      = ((n + 2 ^ (k - 1) : Int) : ℚ) / ((2 ^ k : Nat) : ℚ) := by
    have h4 : ((2 : ℚ) ^ (k - 1)) ≠ 0 := by positivity
    push_cast
    rw [h2]
    field_simp
    ring
  rw [round_eq, h3, Rat.floor_intCast_div_natCast]
  congr 1
  push_cast
  ring

lemma sat32_eq_clamp (y : Int) :
    sat32 y = if y > 2 ^ 31 - 1 then 2 ^ 31 - 1
      else if y < -2 ^ 31 then -2 ^ 31 else y := by
  unfold sat32
  rcases le_total y (2 ^ 31 - 1) with h | h <;>
    rcases le_total (-2 ^ 31) y with h2 | h2 <;>
      simp [max_def, min_def, h, h2] <;> split_ifs <;> omega

lemma sat32_of_bounds (y : Int) (h1 : -2 ^ 31 ≤ y) (h2 : y ≤ 2 ^ 31 - 1) :
    sat32 y = y := by
  rw [sat32_eq_clamp]
  split_ifs <;> omega

/-- For representable inputs not both equal to the minimum, the product is
small enough that the doubling high multiply does not saturate. -/
lemma srdhm_mul_bound (a b : Int) (ha : IsInt32 a) (hb : IsInt32 b)
    (h : ¬(a = -2 ^ 31 ∧ b = -2 ^ 31)) :
    |a * b| ≤ 2 ^ 62 - 2 ^ 31 := by
  unfold IsInt32 at ha hb
  rcases eq_or_ne a (-2 ^ 31) with ha0 | ha0
  · have hbne : b ≠ -2 ^ 31 := fun hb0 => h ⟨ha0, hb0⟩
    have hb' : |b| ≤ 2 ^ 31 - 1 := by
      rw [abs_le]
      omega
    rw [ha0, abs_mul]
    have habs : |(-2 ^ 31 : Int)| = 2 ^ 31 := by norm_num
    rw [habs]
    calc 2 ^ 31 * |b| ≤ 2 ^ 31 * (2 ^ 31 - 1) :=
          mul_le_mul_of_nonneg_left hb' (by norm_num)
      _ = 2 ^ 62 - 2 ^ 31 := by norm_num
  · have ha' : |a| ≤ 2 ^ 31 - 1 := by
      rw [abs_le]
      omega
    have hb' : |b| ≤ 2 ^ 31 := by
      rw [abs_le]
      omega
    rw [abs_mul]
    calc |a| * |b| ≤ (2 ^ 31 - 1) * 2 ^ 31 :=
          mul_le_mul ha' hb' (abs_nonneg _) (by norm_num)
      _ = 2 ^ 62 - 2 ^ 31 := by norm_num

/-- Lane-level characterization of `vqrdmulhq_s32`: saturation happens
exactly when both inputs are the minimum representable value; otherwise the
result is `round(2*a*b / 2^32)` with ties toward positive infinity. -/
lemma srdhm_lane_eq (a b : Int) (ha : IsInt32 a) (hb : IsInt32 b) :
    sat32 ((2 * a * b + 2 ^ 31) / 2 ^ 32)
      = if a = -2 ^ 31 ∧ b = -2 ^ 31 then 2 ^ 31 - 1
        else round (((2 * a * b : Int) : ℚ) / 2 ^ 32) := by
  split
  · rename_i hmin
    rw [hmin.1, hmin.2]
    norm_num [sat32_eq_clamp]
  · rename_i hmin
    have hbound := srdhm_mul_bound a b ha hb hmin
    rw [abs_le] at hbound
    rw [round_intCast_div_pow _ 32 (by norm_num)]
    have h2 : (2 * a * b : Int) = 2 * (a * b) := by ring
    rw [h2]
    norm_num
    apply sat32_of_bounds <;> omega

/-- Lane-level characterization of `vrhaddq_s32`: the rounding halving add
equals the arithmetic mean rounded with ties toward positive infinity. -/
lemma rhadd_lane_eq (a b : Int) :
    (a + b + 1) / 2 = round (((a + b : Int) : ℚ) / 2) := by
  have h := round_intCast_div_pow (a + b) 1 (le_refl 1)
  simp only [pow_one, pow_zero] at h
  exact h.symm

/-- The rounding halving add lies between the two inputs. -/
lemma rhadd_lane_bounds (a b : Int) :
    min a b ≤ (a + b + 1) / 2 ∧ (a + b + 1) / 2 ≤ max a b := by
  constructor <;> rcases le_total a b with h | h <;>
    simp [min_def, max_def, h] <;> omega

lemma lxorLane_neg_one_neg_one : lxorLane (-1) (-1) = 0 := by decide

lemma lxorLane_zero_neg_one : lxorLane 0 (-1) = -1 := by decide

lemma forall_fin_four (P : Fin 4 → Prop) :
    (∀ i, P i) ↔ P 0 ∧ P 1 ∧ P 2 ∧ P 3 := by
  constructor
  · intro h
    exact ⟨h 0, h 1, h 2, h 3⟩
  · rintro ⟨h0, h1, h2, h3⟩ i
    fin_cases i <;> assumption

lemma exists_fin_four (P : Fin 4 → Prop) :
    (∃ i, P i) ↔ P 0 ∨ P 1 ∨ P 2 ∨ P 3 := by
  constructor
  · rintro ⟨i, h⟩
    fin_cases i
    · exact Or.inl h
    · exact Or.inr (Or.inl h)
    · exact Or.inr (Or.inr (Or.inl h))
    · exact Or.inr (Or.inr (Or.inr h))
  · rintro (h | h | h | h)
    exacts [⟨0, h⟩, ⟨1, h⟩, ⟨2, h⟩, ⟨3, h⟩]

/-! ## The claims -/

/-- C10: For all `int32x4_t` values `m`, `t`, `e` — including masks whose
lanes are not well formed — the XOR-based NEON `SelectUsingMask`,
`(m & t) ^ (~m & e)`, reads out lane-wise equal to the OR-based reference
formula `(m & t) | (~m & e)`, because the two operands share no set bit. -/
theorem selectUsingMask_xor_eq_or (m t e : int32x4_t) (i : Fin 4) :
    SelectUsingMask m t e i = BitOr (BitAnd m t) (BitAnd (BitNot m) e) i :=
  selectLane_xor_eq_or (m i) (t i) (e i)

/-- C5: every lane of the output of each NEON comparison operation is
either all-1 bits (pattern `2^32 - 1`, value `-1`) or all-0 bits, never a
mixed pattern, for all inputs. -/
theorem mask_wellformed (a b : int32x4_t) (i : Fin 4) :
    (toBits (MaskIfEqual a b i) = 2 ^ 32 - 1 ∨ toBits (MaskIfEqual a b i) = 0)
  ∧ (toBits (MaskIfNotEqual a b i) = 2 ^ 32 - 1
      ∨ toBits (MaskIfNotEqual a b i) = 0)
  ∧ (toBits (MaskIfZero a i) = 2 ^ 32 - 1 ∨ toBits (MaskIfZero a i) = 0)
  ∧ (toBits (MaskIfNonZero a i) = 2 ^ 32 - 1 ∨ toBits (MaskIfNonZero a i) = 0)
  ∧ (toBits (MaskIfGreaterThan a b i) = 2 ^ 32 - 1
      ∨ toBits (MaskIfGreaterThan a b i) = 0)
  ∧ (toBits (MaskIfGreaterThanOrEqual a b i) = 2 ^ 32 - 1
      ∨ toBits (MaskIfGreaterThanOrEqual a b i) = 0)
  ∧ (toBits (MaskIfLessThan a b i) = 2 ^ 32 - 1
      ∨ toBits (MaskIfLessThan a b i) = 0)
  ∧ (toBits (MaskIfLessThanOrEqual a b i) = 2 ^ 32 - 1
      ∨ toBits (MaskIfLessThanOrEqual a b i) = 0) := by
  have heq : MaskIfEqual a b i = -1 ∨ MaskIfEqual a b i = 0 := by
    unfold MaskIfEqual vceqq_s32
    split <;> simp
  have hzero : MaskIfZero a i = -1 ∨ MaskIfZero a i = 0 := by
    unfold MaskIfZero MaskIfEqual vceqq_s32
    split <;> simp
  refine ⟨?_, ?_, ?_, ?_, ?_, ?_, ?_, ?_⟩
  · rcases heq with h | h <;> rw [h] <;> simp [toBits_neg_one, toBits_zero]
  · show toBits (lxorLane (MaskIfEqual a b i) (-1)) = 2 ^ 32 - 1
      ∨ toBits (lxorLane (MaskIfEqual a b i) (-1)) = 0
    rcases heq with h | h <;> rw [h]
    · rw [lxorLane_neg_one_neg_one]
      simp [toBits_zero]
    · rw [lxorLane_zero_neg_one]
      simp [toBits_neg_one]
  · rcases hzero with h | h <;> rw [h] <;> simp [toBits_neg_one, toBits_zero]
  · show toBits (lxorLane (MaskIfZero a i) (-1)) = 2 ^ 32 - 1
      ∨ toBits (lxorLane (MaskIfZero a i) (-1)) = 0
    rcases hzero with h | h <;> rw [h]
    · rw [lxorLane_neg_one_neg_one]
      simp [toBits_zero]
    · rw [lxorLane_zero_neg_one]
      simp [toBits_neg_one]
  · unfold MaskIfGreaterThan vcgtq_s32
    split <;> simp [toBits_neg_one, toBits_zero]
  · unfold MaskIfGreaterThanOrEqual vcgeq_s32
    split <;> simp [toBits_neg_one, toBits_zero]
  · unfold MaskIfLessThan vcltq_s32
    split <;> simp [toBits_neg_one, toBits_zero]
  · unfold MaskIfLessThanOrEqual vcleq_s32
    split <;> simp [toBits_neg_one, toBits_zero]

/-- C3: for all int32 lane values, `RoundingHalfSum` returns per lane the
arithmetic mean rounded to nearest with ties toward positive infinity,
and the result lies between the minimum and maximum of the two lanes. -/
theorem roundingHalfSum_spec (a b : int32x4_t)
    (ha : IsInt32x4 a) (hb : IsInt32x4 b) (i : Fin 4) :
    RoundingHalfSum a b i = round (((a i + b i : Int) : ℚ) / 2)
  ∧ min (a i) (b i) ≤ RoundingHalfSum a b i
  ∧ RoundingHalfSum a b i ≤ max (a i) (b i) :=
  ⟨rhadd_lane_eq (a i) (b i),
    (rhadd_lane_bounds (a i) (b i)).1,
    (rhadd_lane_bounds (a i) (b i)).2⟩

theorem roundingHalfSum_spec_witness :
    IsInt32x4 sampleA ∧ IsInt32x4 sampleB
  ∧ (RoundingHalfSum sampleA sampleB 1 = round (((sampleA 1 + sampleB 1 : Int) : ℚ) / 2)
      ∧ min (sampleA 1) (sampleB 1) ≤ RoundingHalfSum sampleA sampleB 1
      ∧ RoundingHalfSum sampleA sampleB 1 ≤ max (sampleA 1) (sampleB 1)) :=
  ⟨by decide, by decide,
    roundingHalfSum_spec sampleA sampleB (by decide) (by decide) 1⟩

/-- C2: for all int32 lane values `a`, `b`,
`SaturatingRoundingDoublingHighMul` returns per lane the maximum
representable value `2^31 - 1` when both lanes are the minimum `-2^31`,
and otherwise exactly `round(2*a*b / 2^32)` (ties toward positive
infinity). -/
theorem saturatingRoundingDoublingHighMul_spec (a b : int32x4_t)
    (ha : IsInt32x4 a) (hb : IsInt32x4 b) (i : Fin 4) :
    SaturatingRoundingDoublingHighMul a b i
      = if a i = -2 ^ 31 ∧ b i = -2 ^ 31 then 2 ^ 31 - 1
        else round (((2 * a i * b i : Int) : ℚ) / 2 ^ 32) :=
  srdhm_lane_eq (a i) (b i) (ha i) (hb i)

theorem saturatingRoundingDoublingHighMul_spec_witness :
    IsInt32x4 sampleA ∧ IsInt32x4 sampleB
  ∧ SaturatingRoundingDoublingHighMul sampleA sampleB 0
      = if sampleA 0 = -2 ^ 31 ∧ sampleB 0 = -2 ^ 31 then 2 ^ 31 - 1
        else round (((2 * sampleA 0 * sampleB 0 : Int) : ℚ) / 2 ^ 32) :=
  ⟨by decide, by decide,
    saturatingRoundingDoublingHighMul_spec sampleA sampleB
      (by decide) (by decide) 0⟩

/-- C4: for every well-formed mask (each lane all-1 or all-0) and all
representable `then`/`else` vectors, `SelectUsingMask` returns per lane the
`then` lane where the mask lane is all-1 and the `else` lane where it is
all-0, and agrees exactly with the reference formula
`(mask & then_val) | (~mask & else_val)`. -/
theorem selectUsingMask_spec (m t e : int32x4_t)
    (hm : ∀ i, m i = -1 ∨ m i = 0)
    (ht : IsInt32x4 t) (he : IsInt32x4 e) (i : Fin 4) :
    SelectUsingMask m t e i = (if m i = -1 then t i else e i)
  ∧ SelectUsingMask m t e i = scalar.SelectUsingMask (m i) (t i) (e i) := by
  constructor
  · show lxorLane (landLane (m i) (t i))
      (landLane (lxorLane (m i) (-1)) (e i)) = _
    rcases hm i with h | h <;> rw [h]
    · rw [landLane_neg_one, lxorLane_neg_one_neg_one, landLane_zero,
        lxorLane_zero_right, wrap32_eq _ (wrap32_isInt32 _),
        wrap32_eq _ (ht i)]
      simp
    · rw [landLane_zero, lxorLane_zero_neg_one, landLane_neg_one,
        lxorLane_zero_left, wrap32_eq _ (wrap32_isInt32 _),
        wrap32_eq _ (he i)]
      norm_num
  · show lxorLane (landLane (m i) (t i))
      (landLane (lxorLane (m i) (-1)) (e i))
      = lorLane (landLane (m i) (t i))
          (landLane (scalar.BitNot (m i)) (e i))
    unfold scalar.BitNot
    rw [← lxorLane_neg_one]
    exact selectLane_xor_eq_or (m i) (t i) (e i)

theorem selectUsingMask_spec_witness :
    (∀ i, sampleMask i = -1 ∨ sampleMask i = 0)
  ∧ IsInt32x4 sampleA ∧ IsInt32x4 sampleB
  ∧ (SelectUsingMask sampleMask sampleA sampleB 1
        = (if sampleMask 1 = -1 then sampleA 1 else sampleB 1)
      ∧ SelectUsingMask sampleMask sampleA sampleB 1
        = scalar.SelectUsingMask (sampleMask 1) (sampleA 1) (sampleB 1)) :=
  ⟨by decide, by decide, by decide,
    selectUsingMask_spec sampleMask sampleA sampleB
      (by decide) (by decide) (by decide) 1⟩

/-- C9: `Add`, `Sub` and `Neg` compute per lane plain two's-complement
wraparound arithmetic modulo `2^32` (the result is the representative in
int32 range congruent to the exact result), never saturating; in
particular `Neg` of the minimum representable value `-2^31` is `-2^31`
again. -/
theorem add_sub_neg_wraparound (v w : int32x4_t) (i : Fin 4) :
    (Add v w i % 2 ^ 32 = (v i + w i) % 2 ^ 32 ∧ IsInt32 (Add v w i))
  ∧ (Sub v w i % 2 ^ 32 = (v i - w i) % 2 ^ 32 ∧ IsInt32 (Sub v w i))
  ∧ (Neg v i % 2 ^ 32 = (-(v i)) % 2 ^ 32 ∧ IsInt32 (Neg v i))
  ∧ (v i = -2 ^ 31 → Neg v i = -2 ^ 31) := by
  refine ⟨⟨wrap32_emod _, wrap32_isInt32 _⟩,
    ⟨wrap32_emod _, wrap32_isInt32 _⟩,
    ⟨wrap32_emod _, wrap32_isInt32 _⟩, ?_⟩
  intro h
  show wrap32 (-(v i)) = -2 ^ 31
  rw [h]
  decide

theorem add_sub_neg_wraparound_witness :
    sampleA 0 = -2 ^ 31
  ∧ ((Add sampleA sampleB 0 % 2 ^ 32 = (sampleA 0 + sampleB 0) % 2 ^ 32
        ∧ IsInt32 (Add sampleA sampleB 0))
    ∧ (Sub sampleA sampleB 0 % 2 ^ 32 = (sampleA 0 - sampleB 0) % 2 ^ 32
        ∧ IsInt32 (Sub sampleA sampleB 0))
    ∧ (Neg sampleA 0 % 2 ^ 32 = (-(sampleA 0)) % 2 ^ 32
        ∧ IsInt32 (Neg sampleA 0))
    ∧ (sampleA 0 = -2 ^ 31 → Neg sampleA 0 = -2 ^ 31)) :=
  ⟨by decide, add_sub_neg_wraparound sampleA sampleB 0⟩

/-- C7: for every well-formed mask vector (each lane all-1 or all-0),
`All` is true exactly when every lane is all-1, `Any` is true exactly when
at least one lane is all-1, and both are false when every lane is all-0. -/
theorem all_any_spec (v : int32x4_t) (hm : ∀ i, v i = -1 ∨ v i = 0) :
    (All v = true ↔ ∀ i, v i = -1)
  ∧ (Any v = true ↔ ∃ i, v i = -1)
  ∧ ((∀ i, v i = 0) → All v = false ∧ Any v = false) := by
  have hne : ∀ x : Int, x = -1 ∨ x = 0 → ((x ≠ 0) ↔ x = -1) := by
    rintro x (h | h) <;> simp [h]
  refine ⟨?_, ?_, ?_⟩
  · rw [forall_fin_four]
    unfold All
    simp only [Bool.and_eq_true, bne_iff_ne]
    rw [hne _ (hm 0), hne _ (hm 1), hne _ (hm 2), hne _ (hm 3)]
    tauto
  · rw [exists_fin_four]
    unfold Any
    simp only [Bool.or_eq_true, bne_iff_ne]
    rw [hne _ (hm 0), hne _ (hm 1), hne _ (hm 2), hne _ (hm 3)]
    tauto
  · intro h
    unfold All Any
    rw [h 0, h 1, h 2, h 3]
    simp

theorem all_any_spec_witness :
    (∀ i, sampleMask i = -1 ∨ sampleMask i = 0)
  ∧ ((All sampleMask = true ↔ ∀ i, sampleMask i = -1)
    ∧ (Any sampleMask = true ↔ ∃ i, sampleMask i = -1)
    ∧ ((∀ i, sampleMask i = 0) →
        All sampleMask = false ∧ Any sampleMask = false)) :=
  ⟨by decide, all_any_spec sampleMask (by decide)⟩

/-- C6: `SaturatingRoundingMultiplyByPOT` with positive compile-time
exponent `e` is a left shift by `e` clamped at the int32 minimum and
maximum instead of wrapping, and with negative exponent `e` it is a right
shift by `-e` rounded to nearest (ties toward positive infinity) rather
than truncated.  The source provides only the two sign specializations;
no specialization exists for `e = 0`. -/
theorem saturatingRoundingMultiplyByPOT_spec (e : Int) (x : int32x4_t)
    (i : Fin 4) :
    (1 ≤ e → e ≤ 31 →
      ImplSaturatingRoundingMultiplyByPOT_pos e x i
        = if x i * 2 ^ e.toNat > 2 ^ 31 - 1 then 2 ^ 31 - 1
          else if x i * 2 ^ e.toNat < -2 ^ 31 then -2 ^ 31
          else x i * 2 ^ e.toNat)
  ∧ (-32 ≤ e → e ≤ -1 →
      ImplSaturatingRoundingMultiplyByPOT_neg e x i
        = round ((x i : ℚ) / 2 ^ (-e).toNat)) := by
  constructor
  · intro h1 h2
    show sat32 (x i * 2 ^ e.toNat) = _
    exact sat32_eq_clamp _
  · intro h1 h2
    show (x i + 2 ^ ((-e).toNat - 1)) / 2 ^ (-e).toNat = _
    exact (round_intCast_div_pow (x i) (-e).toNat (by omega)).symm

theorem saturatingRoundingMultiplyByPOT_spec_witness :
    ((1 : Int) ≤ 3 ∧ (3 : Int) ≤ 31 ∧ (-32 : Int) ≤ -4 ∧ (-4 : Int) ≤ -1)
  ∧ ImplSaturatingRoundingMultiplyByPOT_pos 3 sampleA 3
      = (if sampleA 3 * 2 ^ (3 : Int).toNat > 2 ^ 31 - 1 then 2 ^ 31 - 1
        else if sampleA 3 * 2 ^ (3 : Int).toNat < -2 ^ 31 then -2 ^ 31
        else sampleA 3 * 2 ^ (3 : Int).toNat)
  ∧ ImplSaturatingRoundingMultiplyByPOT_neg (-4) sampleA 3
      = round ((sampleA 3 : ℚ) / 2 ^ (-(-4 : Int)).toNat) :=
  ⟨by decide,
    (saturatingRoundingMultiplyByPOT_spec 3 sampleA 3).1 (by decide) (by decide),
    (saturatingRoundingMultiplyByPOT_spec (-4) sampleA 3).2 (by decide)
      (by decide)⟩

/-- C8: for every exponent `1 ≤ e ≤ 31` and every representable vector on
which the saturating left shift saturates no lane, shifting left by `e`
and then right by `e` returns each original lane to within one unit in the
last place (in fact exactly). -/
theorem pot_round_trip (e : Int) (he1 : 1 ≤ e) (he2 : e ≤ 31)
    (x : int32x4_t) (hx : IsInt32x4 x)
    (hns : ∀ i, -2 ^ 31 ≤ x i * 2 ^ e.toNat
      ∧ x i * 2 ^ e.toNat ≤ 2 ^ 31 - 1)
    (i : Fin 4) :
    |ImplSaturatingRoundingMultiplyByPOT_neg (-e)
        (ImplSaturatingRoundingMultiplyByPOT_pos e x) i - x i| ≤ 1 := by
  have hinner : ImplSaturatingRoundingMultiplyByPOT_pos e x i
      = x i * 2 ^ e.toNat := by
    show sat32 (x i * 2 ^ e.toNat) = _
    exact sat32_of_bounds _ (hns i).1 (hns i).2
  have houter : ImplSaturatingRoundingMultiplyByPOT_neg (-e)
        (ImplSaturatingRoundingMultiplyByPOT_pos e x) i
      = (x i * 2 ^ e.toNat + 2 ^ (e.toNat - 1)) / 2 ^ e.toNat := by
    show (ImplSaturatingRoundingMultiplyByPOT_pos e x i
        + 2 ^ ((-(-e)).toNat - 1)) / 2 ^ (-(-e)).toNat = _
    rw [neg_neg, hinner]
  have hsucc : (2 : Int) ^ e.toNat = 2 ^ (e.toNat - 1) * 2 := by
    rw [← pow_succ]
    congr 1
    omega
  have hp : (0 : Int) < 2 ^ (e.toNat - 1) := by positivity
  have hlt : (2 : Int) ^ (e.toNat - 1) < 2 ^ e.toNat := by
    rw [hsucc]
    linarith
  have hexact : (x i * 2 ^ e.toNat + 2 ^ (e.toNat - 1)) / 2 ^ e.toNat
      = x i := by
    rw [add_comm, Int.add_mul_ediv_right _ _
      (ne_of_gt (lt_trans hp hlt)),
      Int.ediv_eq_zero_of_lt (le_of_lt hp) hlt]
    simp
  rw [houter, hexact]
  simp

theorem pot_round_trip_witness :
    ((1 : Int) ≤ 2 ∧ (2 : Int) ≤ 31 ∧ IsInt32x4 sampleC
      ∧ (∀ i, -2 ^ 31 ≤ sampleC i * 2 ^ (2 : Int).toNat
          ∧ sampleC i * 2 ^ (2 : Int).toNat ≤ 2 ^ 31 - 1))
  ∧ |ImplSaturatingRoundingMultiplyByPOT_neg (-2)
      (ImplSaturatingRoundingMultiplyByPOT_pos 2 sampleC) 1 - sampleC 1| ≤ 1 :=
  ⟨by decide,
    pot_round_trip 2 (by decide) (by decide) sampleC (by decide) (by decide) 1⟩

/-- C1: for every primitive operation of the NEON backend and all
representable `int32x4_t` inputs, reading out lane `i` of the vector
result equals applying the scalar (single-int32) semantics of that
operation — modelled from the spec, since `fixedpoint.h` is not in src/ —
to lane `i` of the inputs, for each lane independently. -/
theorem neon_refines_scalar (v w u : int32x4_t)
    (hv : IsInt32x4 v) (hw : IsInt32x4 w) (hu : IsInt32x4 u) (i : Fin 4) :
    BitAnd v w i = scalar.BitAnd (v i) (w i)
  ∧ BitOr v w i = scalar.BitOr (v i) (w i)
  ∧ BitXor v w i = scalar.BitXor (v i) (w i)
  ∧ BitNot v i = scalar.BitNot (v i)
  ∧ Add v w i = scalar.Add (v i) (w i)
  ∧ Sub v w i = scalar.Sub (v i) (w i)
  ∧ Neg v i = scalar.Neg (v i)
  ∧ SelectUsingMask v w u i = scalar.SelectUsingMask (v i) (w i) (u i)
  ∧ MaskIfEqual v w i = scalar.MaskIfEqual (v i) (w i)
  ∧ MaskIfNotEqual v w i = scalar.MaskIfNotEqual (v i) (w i)
  ∧ MaskIfZero v i = scalar.MaskIfZero (v i)
  ∧ MaskIfNonZero v i = scalar.MaskIfNonZero (v i)
  ∧ MaskIfGreaterThan v w i = scalar.MaskIfGreaterThan (v i) (w i)
  ∧ MaskIfGreaterThanOrEqual v w i
      = scalar.MaskIfGreaterThanOrEqual (v i) (w i)
  ∧ MaskIfLessThan v w i = scalar.MaskIfLessThan (v i) (w i)
  ∧ MaskIfLessThanOrEqual v w i = scalar.MaskIfLessThanOrEqual (v i) (w i)
  ∧ RoundingHalfSum v w i = scalar.RoundingHalfSum (v i) (w i)
  ∧ SaturatingRoundingDoublingHighMul v w i
      = scalar.SaturatingRoundingDoublingHighMul (v i) (w i)
  ∧ (∀ e : Int, 1 ≤ e → e ≤ 31 →
      ImplSaturatingRoundingMultiplyByPOT_pos e v i
        = scalar.SaturatingRoundingMultiplyByPOT_pos e (v i))
  ∧ (∀ e : Int, -32 ≤ e → e ≤ -1 →
      ImplSaturatingRoundingMultiplyByPOT_neg e v i
        = scalar.SaturatingRoundingMultiplyByPOT_neg e (v i))
  ∧ (∀ x : Int, Dup x i = scalar.Dup x) := by
  refine ⟨rfl, rfl, rfl, ?_, rfl, rfl, rfl, ?_, rfl, ?_, rfl, ?_, rfl, rfl,
    rfl, rfl, ?_, ?_, ?_, ?_, fun x => rfl⟩
  · show lxorLane (v i) (-1) = scalar.BitNot (v i)
    unfold scalar.BitNot
    exact lxorLane_neg_one (v i)
  · show lxorLane (landLane (v i) (w i))
      (landLane (lxorLane (v i) (-1)) (u i))
      = lorLane (landLane (v i) (w i))
          (landLane (scalar.BitNot (v i)) (u i))
    unfold scalar.BitNot
    rw [← lxorLane_neg_one]
    exact selectLane_xor_eq_or (v i) (w i) (u i)
  · show lxorLane (if v i = w i then -1 else 0) (-1)
      = scalar.MaskIfNotEqual (v i) (w i)
    unfold scalar.MaskIfNotEqual
    split
    · exact lxorLane_neg_one_neg_one
    · exact lxorLane_zero_neg_one
  · show lxorLane (if v i = 0 then -1 else 0) (-1)
      = scalar.MaskIfNonZero (v i)
    unfold scalar.MaskIfNonZero scalar.MaskIfNotEqual
    split
    · exact lxorLane_neg_one_neg_one
    · exact lxorLane_zero_neg_one
  · exact rhadd_lane_eq (v i) (w i)
  · exact srdhm_lane_eq (v i) (w i) (hv i) (hw i)
  · intro e h1 h2
    show sat32 (v i * 2 ^ e.toNat) = _
    unfold scalar.SaturatingRoundingMultiplyByPOT_pos
    exact sat32_eq_clamp _
  · intro e h1 h2
    show (v i + 2 ^ ((-e).toNat - 1)) / 2 ^ (-e).toNat = _
    unfold scalar.SaturatingRoundingMultiplyByPOT_neg
    exact (round_intCast_div_pow (v i) (-e).toNat (by omega)).symm

theorem neon_refines_scalar_witness :
    (IsInt32x4 sampleA ∧ IsInt32x4 sampleB ∧ IsInt32x4 sampleC)
  ∧ RoundingHalfSum sampleA sampleB 2
      = scalar.RoundingHalfSum (sampleA 2) (sampleB 2)
  ∧ SaturatingRoundingDoublingHighMul sampleA sampleB 2
      = scalar.SaturatingRoundingDoublingHighMul (sampleA 2) (sampleB 2)
  ∧ SelectUsingMask sampleA sampleB sampleC 2
      = scalar.SelectUsingMask (sampleA 2) (sampleB 2) (sampleC 2)
  ∧ BitNot sampleA 2 = scalar.BitNot (sampleA 2) := by
  obtain ⟨h1, h2, h3, h4, h5, h6, h7, h8, h9, h10, h11, h12, h13, h14,
    h15, h16, h17, h18, h19, h20, h21⟩ :=
    neon_refines_scalar sampleA sampleB sampleC
      (by decide) (by decide) (by decide) 2
  exact ⟨⟨by decide, by decide, by decide⟩, h17, h18, h8, h4⟩

end gemmlowp
